import Mathlib

/-!
Shallow embedding of the category-remapping and format-conversion core of the
LowLiightObjectDet repository, together with proofs of its specification claims.

Embedded source files:
* `src/exdark/models/cocowrappers/cocowrappertransformers.py`
  (`_get_transformers_coco_to_exdark_mapping`, `_filter_detections`)
* `src/exdark/models/exdarkdedicatedmodels/transformers.py` (`pascal_to_coco`)
* `src/exdark/datamodule.py` (`PredictionError`, `setup_predict_data`,
  `predict_dataloader`)

Numeric values (tensor scalars, Python floats) are modelled as rationals `ℚ`;
Python dictionaries as association lists with insertion-order/overwrite
semantics; Python exceptions as `Except` error values.
-/

set_option autoImplicit false

/-- Python `list.index(x)` modulo the raised `ValueError`: the first index of
`x` in the list, or `none` where Python raises `ValueError`. -/
def pyIndex : List String → String → Option Nat
  | [], _ => none
  | y :: ys, x => if y = x then some 0 else (pyIndex ys x).map (· + 1)

/-- Lookup in a Python-style dict modelled as an association list:
first entry with the given key. -/
def dictGet (m : List (Nat × Nat)) (k : Nat) : Option Nat :=
  match m with
  | [] => none
  | (k2, v) :: rest => if k2 = k then some v else dictGet rest k

/-- Python dict insertion: overwriting an existing key keeps its position,
a new key is appended at the end. -/
def dictInsert (m : List (Nat × Nat)) (k v : Nat) : List (Nat × Nat) :=
  match m with
  | [] => [(k, v)]
  | (k2, v2) :: rest => if k2 = k then (k, v) :: rest else (k2, v2) :: dictInsert rest k v

/-- Python `zip` over three parallel lists (truncates to the shortest). -/
def zip3 {α β γ : Type} : List α → List β → List γ → List (α × β × γ)
  | a :: as, b :: bs, c :: cs => (a, b, c) :: zip3 as bs cs
  | _, _, _ => []

/-- The hard-coded canonical ExDark category list from
`_get_transformers_coco_to_exdark_mapping` (cocowrappertransformers.py lines 37-50). -/
def exdark_categories : List String :=
  ["bicycle", "boat", "bottle", "bus", "car", "cat", "chair", "cup", "dog",
   "motorcycle", "person", "dining table"]

/-- The dict-comprehension loop of `_get_transformers_coco_to_exdark_mapping`:
iterate `enumerate(exdark_categories)` in order, and for each `(idx, name)`
insert `coco_categories.index(name) : idx + 1` into the dict.  A failed
`list.index` call raises `ValueError`, modelled as `none`. -/
def buildMappingAux (coco : List String) : List String → Nat → List (Nat × Nat) →
    Option (List (Nat × Nat))
  | [], _, d => some d
  | c :: cs, idx, d =>
    match pyIndex coco c with
    | none => none
    | some k => buildMappingAux coco cs (idx + 1) (dictInsert d k (idx + 1))

/-- Embedding of `COCOWrapperTransformers._get_transformers_coco_to_exdark_mapping`
(cocowrappertransformers.py lines 36-55), generalised over the canonical
category list (hard-coded to `exdark_categories` in the source) and the
pretrained vocabulary value list `list(self.model.config.id2label.values())`.
Returns `none` where Python raises `ValueError`. -/
def _get_transformers_coco_to_exdark_mapping (cats coco : List String) :
    Option (List (Nat × Nat)) :=
  buildMappingAux coco cats 0 []

/-- A box as produced by `box.tolist()`: a list of rational coordinates. -/
abbrev Box : Type := List ℚ

/-- A per-image detection record: parallel `boxes`, `labels`, `scores`
sequences, as in the dicts consumed and produced by `_filter_detections`. -/
structure Det where
  boxes : List Box
  labels : List Nat
  scores : List ℚ
  deriving DecidableEq, Repr

/-- The inner loop of `_filter_detections` (cocowrappertransformers.py lines
61-72): walk the zipped `(box, label, score)` entries in order; drop an entry
whose label is not a key of the category map, otherwise keep the box and score
and replace the label by its image under the map. -/
def filterEntries (m : List (Nat × Nat)) : List (Box × Nat × ℚ) →
    List Box × List Nat × List ℚ
  | [] => ([], [], [])
  | (b, l, s) :: rest =>
    let done := filterEntries m rest
    match dictGet m l with
    | none => done
    | some l2 => (b :: done.1, l2 :: done.2.1, s :: done.2.2)

/-- Embedding of `COCOWrapperTransformers._filter_detections` (cocowrappertransformers.py
lines 57-76): per-image filtering of detection records through the category
map `m`. -/
def _filter_detections (m : List (Nat × Nat)) (ds : List Det) : List Det :=
  ds.map (fun d =>
    let done := filterEntries m (zip3 d.boxes d.labels d.scores)
    ⟨done.1, done.2.1, done.2.2⟩)

/-- A per-image Pascal-VOC-form record as consumed by `pascal_to_coco`:
`image_id`, `boxes` (xyxy), `labels`, `area`, `iscrowd`.  The `anns` name
variations of the source (`ann`) are kept; tensor `.item()` values are
rationals or integers. -/
structure PascalAnn where
  image_id : Int
  boxes : List (ℚ × ℚ × ℚ × ℚ)
  labels : List Int
  area : List ℚ
  iscrowd : List Int
  deriving DecidableEq, Repr

/-- Errors a Python run of `pascal_to_coco` could surface:
`indexError` is the generic out-of-range failure actually raised on
parallel-array mismatch; `malformedAnn` is the dedicated
error (naming the offending image id) that the spec describes. -/
inductive PyError where
  | indexError : PyError
  | malformedAnn : Int → PyError
  deriving DecidableEq, Repr

/-- One emitted COCO-format entry of `pascal_to_coco` (transformers.py lines
68-74): `category_id` is `float(labels[idx].item())`, `bbox` is
`[x1, y1, x2 - x1, y2 - y1]`, `iscrowd` and `area` are copied through. -/
structure CocoEntry where
  image_id : Int
  category_id : ℚ
  bbox : List ℚ
  iscrowd : Int
  area : ℚ
  deriving DecidableEq, Repr

/-- The per-image output dict of `pascal_to_coco`: `image_id` plus the list
stored under the list-valued source key (field renamed to `anns`). -/
structure CocoAnn where
  image_id : Int
  anns : List CocoEntry
  deriving DecidableEq, Repr

/-- The body of one iteration of the `for idx in range(len(boxes))` loop of
`pascal_to_coco` (transformers.py lines 62-75): index the parallel arrays in
the evaluation order of the source (`boxes[idx]`, then `labels[idx]`, then
`iscrowd[idx]`, then `areas[idx]`), any out-of-range access raising the
generic `IndexError`. -/
def buildEntry (ann : PascalAnn) (idx : Nat) : Except PyError CocoEntry :=
  match ann.boxes[idx]? with
  | none => .error .indexError
  | some (x1, y1, x2, y2) =>
    match ann.labels[idx]? with
    | none => .error .indexError
    | some lab =>
      match ann.iscrowd[idx]? with
      | none => .error .indexError
      | some ic =>
        match ann.area[idx]? with
        | none => .error .indexError
        | some ar =>
          .ok { image_id := ann.image_id, category_id := (lab : ℚ),
                bbox := [x1, y1, x2 - x1, y2 - y1], iscrowd := ic, area := ar }

/-- Run the loop body over a list of indices, stopping at the first raised
error, collecting the emitted entries in order. -/
def buildEntriesFrom (ann : PascalAnn) : List Nat → Except PyError (List CocoEntry)
  | [] => .ok []
  | i :: is =>
    match buildEntry ann i with
    | .error e => .error e
    | .ok e =>
      match buildEntriesFrom ann is with
      | .error e2 => .error e2
      | .ok rest => .ok (e :: rest)

/-- Conversion of one input record by `pascal_to_coco`: the
`for idx in range(len(boxes))` loop plus the surrounding dict construction. -/
def pascal_to_coco_one (ann : PascalAnn) : Except PyError CocoAnn :=
  match buildEntriesFrom ann (List.range ann.boxes.length) with
  | .error e => .error e
  | .ok es => .ok ⟨ann.image_id, es⟩

/-- Embedding of `DetectionTransformer.pascal_to_coco` (transformers.py lines 41-79):
convert a sequence of Pascal-form records to COCO-form records, propagating
the first raised error. -/
def pascal_to_coco : List PascalAnn → Except PyError (List CocoAnn)
  | [] => .ok []
  | a :: rest =>
    match pascal_to_coco_one a with
    | .error e => .error e
    | .ok c =>
      match pascal_to_coco rest with
      | .error e => .error e
      | .ok cs => .ok (c :: cs)

/-- The entry `pascal_to_coco` emits at in-range index `j` (out-of-range
components defaulted), used to state what the conversion produces. -/
def specEntry (ann : PascalAnn) (j : Nat) : CocoEntry :=
  let b := ann.boxes.getD j (0, 0, 0, 0)
  { image_id := ann.image_id
    category_id := ((ann.labels.getD j 0 : Int) : ℚ)
    bbox := [b.1, b.2.1, b.2.2.1 - b.1, b.2.2.2 - b.2.1]
    iscrowd := ann.iscrowd.getD j 0
    area := ann.area.getD j 0 }

/-- The inverse direction of the box conversion from the spec: a COCO `[x, y, w, h]`
bbox is read back as the Pascal box `(x, y, x + w, y + h)`. -/
def coco_bbox_to_pascal : List ℚ → Option (ℚ × ℚ × ℚ × ℚ)
  | [x, y, w, h] => some (x, y, x + w, y + h)
  | _ => none

/-- The state of an `ExDarkDataModule` (datamodule.py) as far as prediction is
concerned: the `predict_datset` attribute is unset (`none`) until
`setup_predict_data` assigns it; a dataset is modelled by the `img_dir` it was
constructed from. -/
structure ExDarkDataModule where
  batch_size : Nat
  predict_datset : Option String
  deriving DecidableEq, Repr

/-- Errors observable from `predict_dataloader`: the dedicated
`predictionError` carrying its message, and the generic Python
`attributeError` that the source catches and never lets escape. -/
inductive DMError where
  | predictionError : String → DMError
  | attributeError : DMError
  deriving DecidableEq, Repr

/-- Embedding of `ExDarkDataModule.setup_predict_data` (datamodule.py lines 53-54):
store a prediction dataset built from `img_dir`. -/
def setup_predict_data (st : ExDarkDataModule) (img_dir : String) : ExDarkDataModule :=
  { st with predict_datset := some img_dir }

/-- Embedding of `ExDarkDataModule.predict_dataloader` (datamodule.py lines 70-74):
accessing the unset `predict_datset` attribute raises `AttributeError`, which
the `try`/`except` turns into `PredictionError` with its default message; with
the attribute set, a loader over the dataset and batch size is returned. -/
def predict_dataloader (st : ExDarkDataModule) : Except DMError (String × Nat) :=
  match st.predict_datset with
  | none => .error (.predictionError ("You have to call set_up_predict_data_first"))
  | some d => .ok (d, st.batch_size)

/-! ### Helper lemmas -/

/-- A successful `list.index` call returns a valid index into the list. -/
theorem pyIndex_lt_length (xs : List String) (x : String) (i : Nat)
    (h : pyIndex xs x = some i) : i < xs.length := by
  induction xs generalizing i with
  | nil => simp [pyIndex] at h
  | cons y ys ih =>
    by_cases hy : y = x
    · simp [pyIndex, hy] at h
      simp [List.length_cons]
      omega
    · simp [pyIndex, hy] at h
      obtain ⟨j, hj, hji⟩ := h
      have := ih j hj
      simp [List.length_cons]
      omega

/-- Every pair of `dictInsert m k v` is a pair of `m` or the inserted pair. -/
theorem mem_dictInsert (m : List (Nat × Nat)) (k v : Nat) (p : Nat × Nat)
    (h : p ∈ dictInsert m k v) : p ∈ m ∨ p = (k, v) := by
  induction m with
  | nil =>
    simp [dictInsert] at h
    simp [h]
  | cons q rest ih =>
    obtain ⟨k2, v2⟩ := q
    by_cases hk : k2 = k
    · simp [dictInsert, hk] at h
      rcases h with h | h
      · right; simp [h]
      · left; simp [h]
    · simp [dictInsert, hk] at h
      rcases h with h | h
      · left; simp [h]
      · rcases ih h with h2 | h2
        · left; simp [h2]
        · right; exact h2

/-- A successful dict lookup identifies a pair of the dict. -/
theorem dictGet_mem (m : List (Nat × Nat)) (k v : Nat) (h : dictGet m k = some v) :
    (k, v) ∈ m := by
  induction m with
  | nil => simp [dictGet] at h
  | cons q rest ih =>
    obtain ⟨k2, v2⟩ := q
    by_cases hk : k2 = k
    · simp [dictGet, hk] at h
      simp [hk, h]
    · simp [dictGet, hk] at h
      exact List.mem_cons_of_mem _ (ih h)

/-- Invariant of the mapping-construction loop: any pair of a successfully
built dict is either from the accumulator or has a key that is a valid index
into the vocabulary and a value in the window of ExDark indices still to be
assigned. -/
theorem buildMappingAux_mem (coco : List String) (cats : List String) :
    ∀ (i0 : Nat) (d m : List (Nat × Nat)), buildMappingAux coco cats i0 d = some m →
    ∀ p ∈ m, p ∈ d ∨ (p.1 < coco.length ∧ i0 + 1 ≤ p.2 ∧ p.2 ≤ i0 + cats.length) := by
  induction cats with
  | nil =>
    intro i0 d m h p hp
    simp [buildMappingAux] at h
    subst h
    exact Or.inl hp
  | cons c cs ih =>
    intro i0 d m h p hp
    cases hidx : pyIndex coco c with
    | none => simp [buildMappingAux, hidx] at h
    | some k =>
      simp only [buildMappingAux, hidx] at h
      rcases ih (i0 + 1) (dictInsert d k (i0 + 1)) m h p hp with hin | hbound
      · rcases mem_dictInsert d k (i0 + 1) p hin with hd | hkv
        · exact Or.inl hd
        · right
          refine ⟨?_, ?_, ?_⟩
          · rw [hkv]; exact pyIndex_lt_length coco c k hidx
          · rw [hkv]
          · rw [hkv]; simp [List.length_cons]
      · right
        obtain ⟨h1, h2, h3⟩ := hbound
        exact ⟨h1, by omega, by simp [List.length_cons]; omega⟩

/-- Bounds on a successfully built category map: every key is a valid index
into the vocabulary, every value an ExDark index in `[1, cats.length]`. -/
theorem mapping_bounds (cats coco : List String) (m : List (Nat × Nat))
    (h : _get_transformers_coco_to_exdark_mapping cats coco = some m) :
    ∀ p ∈ m, p.1 < coco.length ∧ 1 ≤ p.2 ∧ p.2 ≤ cats.length := by
  intro p hp
  rcases buildMappingAux_mem coco cats 0 [] m h p hp with h0 | hb
  · cases h0
  · exact ⟨hb.1, by omega, by omega⟩

/-- If some canonical name is missing from the vocabulary, the whole
mapping-construction loop fails, whatever the accumulator. -/
theorem buildMappingAux_absent (coco : List String) (c : String)
    (habs : pyIndex coco c = none) :
    ∀ (cats : List String) (i0 : Nat) (d : List (Nat × Nat)), c ∈ cats →
    buildMappingAux coco cats i0 d = none := by
  intro cats
  induction cats with
  | nil => intro i0 d h; cases h
  | cons c2 cs ih =>
    intro i0 d h
    rcases List.mem_cons.mp h with rfl | hmem
    · simp [buildMappingAux, habs]
    · cases hidx : pyIndex coco c2 with
      | none => simp [buildMappingAux, hidx]
      | some k =>
        simp only [buildMappingAux, hidx]
        exact ih _ _ hmem

/-- The filtering loop, characterised entry-wise: each surviving component is
a `filterMap` over the zipped input entries, keyed on the category-map lookup
of the label of the entry. -/
theorem filterEntries_eq (m : List (Nat × Nat)) (ts : List (Box × Nat × ℚ)) :
    filterEntries m ts =
      (ts.filterMap (fun t => if (dictGet m t.2.1).isSome then some t.1 else none),
       ts.filterMap (fun t => dictGet m t.2.1),
       ts.filterMap (fun t => (dictGet m t.2.1).map (fun _ => t.2.2))) := by
  induction ts with
  | nil => rfl
  | cons t rest ih =>
    obtain ⟨b, l, s⟩ := t
    cases h : dictGet m l with
    | none => simp [filterEntries, List.filterMap_cons, h, ih]
    | some l2 => simp [filterEntries, List.filterMap_cons, h, ih]

/-- A record all of whose labels miss the category map filters to nothing. -/
theorem filterEntries_none (m : List (Nat × Nat)) (ts : List (Box × Nat × ℚ))
    (h : ∀ t ∈ ts, dictGet m t.2.1 = none) : filterEntries m ts = ([], [], []) := by
  induction ts with
  | nil => rfl
  | cons t rest ih =>
    obtain ⟨b, l, s⟩ := t
    have h1 : dictGet m l = none := h (b, l, s) (by simp)
    simp only [filterEntries, h1]
    exact ih (fun t2 ht2 => h t2 (by simp [ht2]))

/-- The zip of three lists never yields more entries than any of its inputs. -/
theorem zip3_length {α β γ : Type} :
    ∀ (as : List α) (bs : List β) (cs : List γ),
      (zip3 as bs cs).length ≤ as.length ∧ (zip3 as bs cs).length ≤ bs.length ∧
      (zip3 as bs cs).length ≤ cs.length := by
  intro as
  induction as with
  | nil =>
    intro bs cs
    simp [zip3]
  | cons a as2 ih =>
    intro bs cs
    cases bs with
    | nil => simp [zip3]
    | cons b bs2 =>
      cases cs with
      | nil => simp [zip3]
      | cons c cs2 =>
        have := ih bs2 cs2
        simp only [zip3, List.length_cons]
        omega

/-- In-range indexing with a default value agrees with optional indexing. -/
theorem getElem?_getD_of_lt {α : Type} (l : List α) (j : Nat) (d : α) (h : j < l.length) :
    l[j]? = some (l.getD j d) := by
  rw [List.getD_eq_getElem?_getD, List.getElem?_eq_getElem h]
  rfl

/-- One in-range loop iteration of `pascal_to_coco` emits exactly the entry
described by `specEntry`. -/
theorem buildEntry_ok_of_lt (ann : PascalAnn) (j : Nat)
    (hb : j < ann.boxes.length) (hl : j < ann.labels.length)
    (hc : j < ann.iscrowd.length) (ha : j < ann.area.length) :
    buildEntry ann j = .ok (specEntry ann j) := by
  rcases hB : ann.boxes.getD j (0, 0, 0, 0) with ⟨x1, y1, x2, y2⟩
  have hb2 := getElem?_getD_of_lt ann.boxes j (0, 0, 0, 0) hb
  rw [hB] at hb2
  have hl2 := getElem?_getD_of_lt ann.labels j 0 hl
  have hc2 := getElem?_getD_of_lt ann.iscrowd j 0 hc
  have ha2 := getElem?_getD_of_lt ann.area j 0 ha
  rw [buildEntry, hb2, hl2, hc2, ha2]
  simp only [specEntry, hB]

/-- Every error the loop body can raise is the generic index error. -/
theorem buildEntry_error (ann : PascalAnn) (i : Nat) (e : PyError)
    (h : buildEntry ann i = .error e) : e = .indexError := by
  rw [buildEntry] at h
  cases hb : ann.boxes[i]? with
  | none => simp [hb] at h; exact h.symm
  | some b =>
    obtain ⟨x1, y1, x2, y2⟩ := b
    cases hl : ann.labels[i]? with
    | none => simp [hb, hl] at h; exact h.symm
    | some lab =>
      cases hc : ann.iscrowd[i]? with
      | none => simp [hb, hl, hc] at h; exact h.symm
      | some ic =>
        cases ha : ann.area[i]? with
        | none => simp [hb, hl, hc, ha] at h; exact h.symm
        | some ar => simp [hb, hl, hc, ha] at h

/-- A loop iteration that emits an entry indexed all four parallel arrays
in range. -/
theorem buildEntry_ok_bounds (ann : PascalAnn) (i : Nat) (r : CocoEntry)
    (h : buildEntry ann i = .ok r) :
    i < ann.labels.length ∧ i < ann.iscrowd.length ∧ i < ann.area.length := by
  rw [buildEntry] at h
  cases hb : ann.boxes[i]? with
  | none => simp [hb] at h
  | some b =>
    obtain ⟨x1, y1, x2, y2⟩ := b
    cases hl : ann.labels[i]? with
    | none => simp [hb, hl] at h
    | some lab =>
      cases hc : ann.iscrowd[i]? with
      | none => simp [hb, hl, hc] at h
      | some ic =>
        cases ha : ann.area[i]? with
        | none => simp [hb, hl, hc, ha] at h
        | some ar =>
          exact ⟨(List.getElem?_eq_some.mp hl).1, (List.getElem?_eq_some.mp hc).1,
                 (List.getElem?_eq_some.mp ha).1⟩

/-- If every listed iteration succeeds with its `specEntry`, the whole loop
collects exactly those entries, in index order. -/
theorem buildEntriesFrom_of_ok (ann : PascalAnn) (is : List Nat)
    (h : ∀ i ∈ is, buildEntry ann i = .ok (specEntry ann i)) :
    buildEntriesFrom ann is = .ok (is.map (specEntry ann)) := by
  induction is with
  | nil => rfl
  | cons i is2 ih =>
    have h1 := h i (by simp)
    have h2 := ih (fun i2 hi2 => h i2 (by simp [hi2]))
    simp [buildEntriesFrom, h1, h2]

/-- Any error escaping the entry-collection loop is the generic index error. -/
theorem buildEntriesFrom_error (ann : PascalAnn) (is : List Nat) (e : PyError)
    (h : buildEntriesFrom ann is = .error e) : e = .indexError := by
  induction is generalizing e with
  | nil => simp [buildEntriesFrom] at h
  | cons i is2 ih =>
    cases hbe : buildEntry ann i with
    | error e2 =>
      simp only [buildEntriesFrom, hbe] at h
      have he : e2 = e := Except.error.inj h
      exact he ▸ buildEntry_error ann i e2 hbe
    | ok r =>
      cases hrest : buildEntriesFrom ann is2 with
      | error e2 =>
        simp only [buildEntriesFrom, hbe, hrest] at h
        have he : e2 = e := Except.error.inj h
        exact he ▸ ih e2 hrest
      | ok rs => simp [buildEntriesFrom, hbe, hrest] at h

/-- A successful run of the entry-collection loop means every listed
iteration succeeded. -/
theorem buildEntriesFrom_ok_mem (ann : PascalAnn) (is : List Nat) (es : List CocoEntry)
    (h : buildEntriesFrom ann is = .ok es) :
    ∀ i ∈ is, ∃ r, buildEntry ann i = .ok r := by
  induction is generalizing es with
  | nil => intro i hi; cases hi
  | cons i0 is2 ih =>
    intro i hi
    cases hbe : buildEntry ann i0 with
    | error e => simp [buildEntriesFrom, hbe] at h
    | ok r0 =>
      cases hrest : buildEntriesFrom ann is2 with
      | error e => simp [buildEntriesFrom, hbe, hrest] at h
      | ok rs =>
        rcases List.mem_cons.mp hi with rfl | hmem
        · exact ⟨r0, hbe⟩
        · exact ih rs hrest i hmem

/-- With all parallel arrays at least as long as `boxes`, converting one
record succeeds and emits one `specEntry` per box index, in order. -/
theorem pascal_to_coco_one_ok (ann : PascalAnn)
    (hl : ann.boxes.length ≤ ann.labels.length)
    (hc : ann.boxes.length ≤ ann.iscrowd.length)
    (ha : ann.boxes.length ≤ ann.area.length) :
    pascal_to_coco_one ann =
      .ok ⟨ann.image_id, (List.range ann.boxes.length).map (specEntry ann)⟩ := by
  have h : ∀ i ∈ List.range ann.boxes.length, buildEntry ann i = .ok (specEntry ann i) := by
    intro i hi
    have hib : i < ann.boxes.length := List.mem_range.mp hi
    exact buildEntry_ok_of_lt ann i hib (lt_of_lt_of_le hib hl)
      (lt_of_lt_of_le hib hc) (lt_of_lt_of_le hib ha)
  simp [pascal_to_coco_one, buildEntriesFrom_of_ok ann _ h]

/-- List version of the success case of the conversion. -/
theorem pascal_to_coco_ok (anns : List PascalAnn)
    (h : ∀ ann ∈ anns, ann.labels.length = ann.boxes.length ∧
      ann.area.length = ann.boxes.length ∧ ann.iscrowd.length = ann.boxes.length) :
    pascal_to_coco anns = .ok (anns.map (fun ann =>
      ⟨ann.image_id, (List.range ann.boxes.length).map (specEntry ann)⟩)) := by
  induction anns with
  | nil => rfl
  | cons a rest ih =>
    obtain ⟨h1, h2, h3⟩ := h a (by simp)
    have hone := pascal_to_coco_one_ok a (le_of_eq h1.symm) (le_of_eq h3.symm)
      (le_of_eq h2.symm)
    have hrest := ih (fun ann hann => h ann (by simp [hann]))
    simp [pascal_to_coco, hone, hrest]

/-! ### Claim theorems -/

/-- Claim C1, counterexample: with canonical list `["cat"]` and pretrained
vocabulary `["dog"]` the remapper does not return the map with no entry for
the absent category (which would be the empty map); it raises `ValueError`
(modelled as `none`), contradicting the claimed silent omission. -/
theorem claim_C1_counterexample :
    _get_transformers_coco_to_exdark_mapping ["cat"] ["dog"] ≠ some [] ∧
    _get_transformers_coco_to_exdark_mapping ["cat"] ["dog"] = none := by
  decide

/-- Claim C1, amended: if any canonical category name is absent from the
pretrained vocabulary, the remapper raises `ValueError` from `list.index`
(returns no map at all); the omission is not silent. -/
theorem claim_C1_amended (cats coco : List String) (c : String)
    (hc : c ∈ cats) (habs : pyIndex coco c = none) :
    _get_transformers_coco_to_exdark_mapping cats coco = none :=
  buildMappingAux_absent coco c habs cats 0 [] hc

/-- Witness for the amended claim C1 at canonical list `["cat"]` and
vocabulary `["dog"]`. -/
theorem claim_C1_witness :
    "cat" ∈ ["cat"] ∧ pyIndex ["dog"] "cat" = none ∧
    _get_transformers_coco_to_exdark_mapping ["cat"] ["dog"] = none :=
  ⟨by decide, by decide, claim_C1_amended ["cat"] ["dog"] "cat" (by decide) (by decide)⟩

/-- Claim C8: canonical list `["cat", "dog"]` with pretrained vocabulary
`{0: "dog", 1: "car", 2: "cat"}` yields exactly the category map
`{2: 1, 0: 2}`. -/
theorem claim_C8 :
    _get_transformers_coco_to_exdark_mapping ["cat", "dog"] ["dog", "car", "cat"] =
      some [(2, 1), (0, 2)] ∧
    dictGet [(2, 1), (0, 2)] 2 = some 1 ∧
    dictGet [(2, 1), (0, 2)] 0 = some 2 ∧
    dictGet [(2, 1), (0, 2)] 1 = none := by
  decide

/-- Claim C2: the detection filter drops exactly the entries whose label is
not a key of the category map (their boxes and scores as well), maps the
surviving labels through the map while keeping boxes and scores, and keeps
the survivors in input order; in particular, with map `{2: 1, 0: 2}`, boxes
`[b0, b1, b2]`, labels `[0, 1, 2]` and scores `[0.9, 0.8, 0.7]` the result
is boxes `[b0, b2]`, labels `[2, 1]`, scores `[0.9, 0.7]`. -/
theorem claim_C2 (m : List (Nat × Nat)) (ds : List Det) (b0 b1 b2 : Box) :
    _filter_detections m ds = ds.map (fun d =>
      ⟨(zip3 d.boxes d.labels d.scores).filterMap
          (fun t => if (dictGet m t.2.1).isSome then some t.1 else none),
        (zip3 d.boxes d.labels d.scores).filterMap (fun t => dictGet m t.2.1),
        (zip3 d.boxes d.labels d.scores).filterMap
          (fun t => (dictGet m t.2.1).map (fun _ => t.2.2))⟩) ∧
    _filter_detections [(2, 1), (0, 2)]
        [⟨[b0, b1, b2], [0, 1, 2], [9/10, 8/10, 7/10]⟩] =
      [⟨[b0, b2], [2, 1], [9/10, 7/10]⟩] := by
  constructor
  · simp only [_filter_detections, filterEntries_eq]
  · rfl

/-- Claim C9: an image whose detection record has no entries (or none whose
label is a key of the map) yields an empty detection record at its position
in the output; the image is not dropped, and the output batch keeps the
length of the input batch. -/
theorem claim_C9 (m : List (Nat × Nat)) (ds : List Det) (i : Nat) (d : Det)
    (hd : ds[i]? = some d)
    (hvac : zip3 d.boxes d.labels d.scores = [] ∨
      ∀ t ∈ zip3 d.boxes d.labels d.scores, dictGet m t.2.1 = none) :
    (_filter_detections m ds)[i]? = some ⟨[], [], []⟩ ∧
    (_filter_detections m ds).length = ds.length := by
  have hempty : filterEntries m (zip3 d.boxes d.labels d.scores) = ([], [], []) := by
    rcases hvac with h | h
    · rw [h]; rfl
    · exact filterEntries_none m _ h
  constructor
  · rw [_filter_detections, List.getElem?_map, hd]
    simp [hempty]
  · simp [_filter_detections]

/-- Witness for claim C9: the empty detection record of a one-image batch
filters to the empty record under the empty category map. -/
theorem claim_C9_witness :
    (_filter_detections [] [⟨[], [], []⟩])[0]? = some ⟨[], [], []⟩ ∧
    (_filter_detections [] [⟨[], [], []⟩]).length = 1 :=
  claim_C9 [] [⟨[], [], []⟩] 0 ⟨[], [], []⟩ rfl (Or.inl rfl)

/-- Every label surviving the filter is a value of the category map. -/
theorem filterEntries_labels_mem (m : List (Nat × Nat)) (ts : List (Box × Nat × ℚ))
    (l : Nat) (hl : l ∈ (filterEntries m ts).2.1) : ∃ k, (k, l) ∈ m := by
  rw [filterEntries_eq] at hl
  obtain ⟨t, ht, hget⟩ := List.mem_filterMap.mp hl
  exact ⟨t.2.1, dictGet_mem m t.2.1 l hget⟩

/-- The filter never lengthens any component of a record. -/
theorem filterEntries_lengths (m : List (Nat × Nat)) (ts : List (Box × Nat × ℚ)) :
    (filterEntries m ts).1.length ≤ ts.length ∧
    (filterEntries m ts).2.1.length ≤ ts.length ∧
    (filterEntries m ts).2.2.length ≤ ts.length := by
  rw [filterEntries_eq]
  exact ⟨List.length_filterMap_le _ _, List.length_filterMap_le _ _,
    List.length_filterMap_le _ _⟩

/-- Claim C4: on a successfully built category map every key is a valid index
into the vocabulary and every value lies in `[1, cats.length]`; consequently
every label the filter outputs lies in `[1, cats.length]` (never 0 or
negative, as the labels are naturals bounded below by 1), and no per-image
output component is longer than its input counterpart. -/
theorem claim_C4 (cats coco : List String) (m : List (Nat × Nat))
    (hbuild : _get_transformers_coco_to_exdark_mapping cats coco = some m)
    (k v : Nat) (hkv : (k, v) ∈ m)
    (ds : List Det) (i : Nat) (d out : Det)
    (hd : ds[i]? = some d) (hout : (_filter_detections m ds)[i]? = some out)
    (l : Nat) (hl : l ∈ out.labels) :
    (k < coco.length ∧ 1 ≤ v ∧ v ≤ cats.length) ∧
    (1 ≤ l ∧ l ≤ cats.length) ∧
    out.labels.length ≤ d.labels.length ∧
    out.boxes.length ≤ d.boxes.length ∧
    out.scores.length ≤ d.scores.length := by
  have hm := mapping_bounds cats coco m hbuild
  have hk := hm (k, v) hkv
  rw [_filter_detections, List.getElem?_map, hd] at hout
  have hout2 : (⟨(filterEntries m (zip3 d.boxes d.labels d.scores)).1,
      (filterEntries m (zip3 d.boxes d.labels d.scores)).2.1,
      (filterEntries m (zip3 d.boxes d.labels d.scores)).2.2⟩ : Det) = out :=
    Option.some.inj hout
  have hlab : out.labels = (filterEntries m (zip3 d.boxes d.labels d.scores)).2.1 := by
    rw [← hout2]
  have hbox : out.boxes = (filterEntries m (zip3 d.boxes d.labels d.scores)).1 := by
    rw [← hout2]
  have hsc : out.scores = (filterEntries m (zip3 d.boxes d.labels d.scores)).2.2 := by
    rw [← hout2]
  obtain ⟨k2, hk2⟩ :=
    filterEntries_labels_mem m (zip3 d.boxes d.labels d.scores) l (hlab ▸ hl)
  have hlb := hm (k2, l) hk2
  have hlen := filterEntries_lengths m (zip3 d.boxes d.labels d.scores)
  have hz := zip3_length d.boxes d.labels d.scores
  refine ⟨⟨hk.1, hk.2.1, hk.2.2⟩, ⟨hlb.2.1, hlb.2.2⟩, ?_, ?_, ?_⟩
  · rw [hlab]; omega
  · rw [hbox]; omega
  · rw [hsc]; omega

/-- Witness for claim C4 at the Scenario 1 map and a one-image batch whose
single detection has label 0 (mapped to ExDark index 2). -/
theorem claim_C4_witness :
    ((2 : Nat) < 3 ∧ (1 : Nat) ≤ 1 ∧ (1 : Nat) ≤ 2) ∧
    ((1 : Nat) ≤ 2 ∧ (2 : Nat) ≤ 2) ∧
    (1 : Nat) ≤ 1 ∧ (1 : Nat) ≤ 1 ∧ (1 : Nat) ≤ 1 :=
  claim_C4 ["cat", "dog"] ["dog", "car", "cat"] [(2, 1), (0, 2)] (by decide)
    2 1 (by decide)
    [⟨[[0, 0, 1, 1]], [0], [1/2]⟩] 0 ⟨[[0, 0, 1, 1]], [0], [1/2]⟩
    ⟨[[0, 0, 1, 1]], [2], [1/2]⟩ rfl rfl 2 (by simp)

/-- The Pascal record of the Scenario 3 box example of the spec: one box
`(10, 10, 50, 40)` with label 3, area 1200, not crowd, image id 7. -/
def annC3 : PascalAnn := ⟨7, [(10, 10, 50, 40)], [3], [1200], [0]⟩

/-- Evaluating the conversion on the Scenario 3 record. -/
theorem pascal_to_coco_annC3 :
    pascal_to_coco [annC3] = .ok [⟨7, [⟨7, 3, [10, 10, 40, 30], 0, 1200⟩]⟩] := by
  have h := pascal_to_coco_ok [annC3] (by decide)
  have hr : List.range 1 = [0] := rfl
  rw [h]
  norm_num [annC3, specEntry, hr]

/-- Claim C3: for records whose parallel arrays all have the length of
`boxes`, the conversion succeeds and emits, per image and per box index, an
entry with bbox `[x1, y1, x2 - x1, y2 - y1]`, the label value as its (float)
category id, and the crowd flag and area copied through unchanged; in
particular the Pascal box `(10, 10, 50, 40)` becomes COCO bbox
`[10, 10, 40, 30]`. -/
theorem claim_C3 (anns : List PascalAnn)
    (h : ∀ ann ∈ anns, ann.labels.length = ann.boxes.length ∧
      ann.area.length = ann.boxes.length ∧ ann.iscrowd.length = ann.boxes.length) :
    pascal_to_coco anns = .ok (anns.map (fun ann =>
      ⟨ann.image_id, (List.range ann.boxes.length).map (specEntry ann)⟩)) ∧
    pascal_to_coco [annC3] = .ok [⟨7, [⟨7, 3, [10, 10, 40, 30], 0, 1200⟩]⟩] :=
  ⟨pascal_to_coco_ok anns h, pascal_to_coco_annC3⟩

/-- Witness for claim C3 at the Scenario 3 record. -/
theorem claim_C3_witness :
    pascal_to_coco [annC3] = .ok [⟨7, [specEntry annC3 0]⟩] ∧
    pascal_to_coco [annC3] = .ok [⟨7, [⟨7, 3, [10, 10, 40, 30], 0, 1200⟩]⟩] :=
  claim_C3 [annC3] (by decide)

/-- The Pascal record of Scenario 5: boxes of length 3 but labels of
length 2, image id 7 (area and crowd arrays long enough not to interfere). -/
def annC5 : PascalAnn :=
  ⟨7, [(0, 0, 1, 1), (0, 0, 2, 2), (0, 0, 3, 3)], [1, 2], [1, 4, 9], [0, 0, 0]⟩

/-- Claim C5, counterexample: on a record with boxes length 3 and labels
length 2 the conversion fails with the generic index error; it does not fail
with the dedicated malformed-record error naming the image id 7 that the
claim describes. -/
theorem claim_C5_counterexample :
    pascal_to_coco [annC5] = .error .indexError ∧
    pascal_to_coco [annC5] ≠ .error (.malformedAnn 7) := by
  have h1 : pascal_to_coco [annC5] = .error .indexError := by rfl
  refine ⟨h1, ?_⟩
  rw [h1]
  simp

/-- Claim C5, amended: a Pascal record whose labels array is shorter than its
boxes array makes the conversion fail, but late, with the generic
index-out-of-range error — not with a dedicated error naming the image id. -/
theorem claim_C5_amended (ann : PascalAnn)
    (h : ann.labels.length < ann.boxes.length) :
    pascal_to_coco [ann] = .error .indexError := by
  have hone : pascal_to_coco_one ann = .error .indexError := by
    cases hb : buildEntriesFrom ann (List.range ann.boxes.length) with
    | error e =>
      have he := buildEntriesFrom_error ann _ e hb
      simp [pascal_to_coco_one, hb, he]
    | ok es =>
      exfalso
      have hmem : ann.labels.length ∈ List.range ann.boxes.length := List.mem_range.mpr h
      obtain ⟨r, hr⟩ := buildEntriesFrom_ok_mem ann _ es hb _ hmem
      have hbd := buildEntry_ok_bounds ann _ r hr
      omega
  simp [pascal_to_coco, hone]

/-- Witness for the amended claim C5 at the Scenario 5 record. -/
theorem claim_C5_witness :
    (2 : Nat) < 3 ∧ pascal_to_coco [annC5] = .error .indexError :=
  ⟨by decide, claim_C5_amended annC5 (by decide)⟩

/-- Claim C6: reading an emitted COCO bbox `[x, y, w, h]` back as the Pascal
box `(x, y, x + w, y + h)` recovers exactly the box the entry was built
from (exact rational arithmetic). -/
theorem claim_C6 (ann : PascalAnn) (j : Nat) (e : CocoEntry)
    (h : buildEntry ann j = .ok e) :
    coco_bbox_to_pascal e.bbox = ann.boxes[j]? := by
  rw [buildEntry] at h
  cases hb : ann.boxes[j]? with
  | none => simp [hb] at h
  | some b =>
    obtain ⟨x1, y1, x2, y2⟩ := b
    cases hl : ann.labels[j]? with
    | none => simp [hb, hl] at h
    | some lab =>
      cases hc : ann.iscrowd[j]? with
      | none => simp [hb, hl, hc] at h
      | some ic =>
        cases ha : ann.area[j]? with
        | none => simp [hb, hl, hc, ha] at h
        | some ar =>
          rw [hb, hl, hc, ha] at h
          have he : e = ⟨ann.image_id, (lab : ℚ), [x1, y1, x2 - x1, y2 - y1], ic, ar⟩ :=
            (Except.ok.inj h).symm
          rw [he]
          show coco_bbox_to_pascal [x1, y1, x2 - x1, y2 - y1] = some (x1, y1, x2, y2)
          simp only [coco_bbox_to_pascal, Option.some.injEq, Prod.mk.injEq]
          refine ⟨trivial, trivial, by ring, by ring⟩

/-- The concrete record for the round-trip witness: one box `(1, 2, 4, 7)`. -/
def annC6 : PascalAnn := ⟨5, [(1, 2, 4, 7)], [3], [9], [0]⟩

/-- Witness for claim C6: the emitted bbox `[1, 2, 3, 5]` converts back to
the original Pascal box `(1, 2, 4, 7)`. -/
theorem claim_C6_witness :
    coco_bbox_to_pascal [1, 2, 3, 5] = some (1, 2, 4, 7) :=
  claim_C6 annC6 0 ⟨5, 3, [1, 2, 3, 5], 0, 9⟩ (by norm_num [buildEntry, annC6])

/-- Claim C7: with no prediction dataset configured, `predict_dataloader`
fails with the dedicated `PredictionError` (carrying its descriptive default
message), not with the caught generic attribute-access failure; once
`setup_predict_data` has been called, `predict_dataloader` returns a loader
and raises no error. -/
theorem claim_C7 (st : ExDarkDataModule) (dir : String)
    (h : st.predict_datset = none) :
    predict_dataloader st =
      .error (.predictionError ("You have to call set_up_predict_data_first")) ∧
    predict_dataloader st ≠ .error .attributeError ∧
    predict_dataloader (setup_predict_data st dir) = .ok (dir, st.batch_size) := by
  refine ⟨?_, ?_, ?_⟩
  · rw [predict_dataloader, h]
  · rw [predict_dataloader, h]
    simp
  · rfl

/-- Witness for claim C7 on a freshly constructed data module with batch
size 4. -/
theorem claim_C7_witness :
    predict_dataloader ⟨4, none⟩ =
      .error (.predictionError ("You have to call set_up_predict_data_first")) ∧
    predict_dataloader ⟨4, none⟩ ≠ .error .attributeError ∧
    predict_dataloader (setup_predict_data ⟨4, none⟩ ("imgs")) = .ok (("imgs"), 4) :=
  claim_C7 ⟨4, none⟩ ("imgs") rfl

/-- Claim C10: converting one record succeeds — emitting exactly one entry
per box index, so the output count is determined solely by the boxes array —
precisely when no parallel array is shorter than `boxes`; longer labels,
area or iscrowd arrays are silently ignored, and a failure can only occur
when `boxes` is longer than one of them. -/
theorem claim_C10 (ann : PascalAnn) :
    (∃ ca, pascal_to_coco_one ann = .ok ca ∧ ca.anns.length = ann.boxes.length) ↔
    (ann.boxes.length ≤ ann.labels.length ∧ ann.boxes.length ≤ ann.iscrowd.length ∧
     ann.boxes.length ≤ ann.area.length) := by
  constructor
  · rintro ⟨ca, hca, hlen⟩
    cases hb : buildEntriesFrom ann (List.range ann.boxes.length) with
    | error e => simp [pascal_to_coco_one, hb] at hca
    | ok es =>
      rcases Nat.eq_zero_or_pos ann.boxes.length with hz | hpos
      · omega
      · have hmem : ann.boxes.length - 1 ∈ List.range ann.boxes.length :=
          List.mem_range.mpr (by omega)
        obtain ⟨r, hr⟩ := buildEntriesFrom_ok_mem ann _ es hb _ hmem
        have hbd := buildEntry_ok_bounds ann _ r hr
        omega
  · rintro ⟨h1, h2, h3⟩
    refine ⟨⟨ann.image_id, (List.range ann.boxes.length).map (specEntry ann)⟩, ?_, ?_⟩
    · exact pascal_to_coco_one_ok ann h1 h2 h3
    · simp
